import Mathlib

/-!
Verification of `lightraildev/create_isochrones.py`.

The script is a linear pipeline over attribute tables (ArcGIS feature
classes).  We embed each table as a Lean list of rows and each cursor
loop as a recursive function over that list.  External GIS computations
(the near table, the network solver's polygons, the sub-layer names
returned by `GetNAClassNames`) are inputs to the embedded functions, as
they are to the script.  Python dictionaries built by insertion loops
are embedded as association lists where the *last* binding of a key
wins, matching repeated `d[k] = v` assignments.  A Python `KeyError`,
`IndexError`/`ValueError`, or `sys.exit()` is embedded as `none`.

String operations are implemented on `List Char` by structural
recursion so that every definition evaluates inside the kernel:
`occursIn` is Python's `in` substring test, `breakOn` gives the pieces
of `re.split` with a literal pattern, `pyInt` is `int()` on a decimal
string (optional surrounding whitespace, optional sign), and `pyStrip`
is `str.strip()`.
-/

set_option autoImplicit false

namespace LightRailDev

/-- Boolean test that the first character list is an initial segment of the
second. -/
def leadsWith : List Char → List Char → Bool
  | [], _ => true
  | _ :: _, [] => false
  | c :: cs, d :: ds => c == d && leadsWith cs ds

/-- Boolean test that the first character list occurs contiguously inside the
second (at any position). -/
def occursIn : List Char → List Char → Bool
  | pat, [] => leadsWith pat []
  | pat, c :: rest => leadsWith pat (c :: rest) || occursIn pat rest

/-- Python's substring containment test `pat in s`. -/
def strContains (s pat : String) : Bool := occursIn pat.data s.data

/-- Embedding of the per-row rule cascade in `add_inception_year`
(create_isochrones.py lines 117-135): the chained `if`/`elif` over the row's
`route_desc` and `max_zone` values.  The final `else` branch prints and calls
`sys.exit()`; it is embedded as `none`. -/
def inception_year (rte_desc zone : String) : Option Int :=
  if strContains rte_desc "MAX Blue Line" &&
      !(zone == "West Suburbs" || zone == "Southwest Portland") then some 1980
  else if strContains rte_desc "MAX Blue Line" then some 1990
  else if strContains rte_desc "MAX Red Line" then some 1997
  else if strContains rte_desc "MAX Yellow Line" &&
      zone != "Central Business District" then some 1999
  else if strContains rte_desc "MAX Green Line" then some 2003
  else if strContains rte_desc "MAX Orange Line" then some 2008
  else none

/-- One rule of the static inception-year table as the spec describes it: a
route-description substring key, a test on the stop's zone, and the year the
rule yields. -/
structure YearRule where
  route_sub : String
  zone_test : String → Bool
  year : Int

/-- The static rule table stated by the spec, in the order the rules are to be
tried: Blue outside the two western zones 1980, Blue otherwise 1990, Red 1997,
Yellow outside the central business district 1999, Green 2003, Orange 2008. -/
def inception_rule_table : List YearRule := [
  ⟨"MAX Blue Line", fun z => !(z == "West Suburbs" || z == "Southwest Portland"), 1980⟩,
  ⟨"MAX Blue Line", fun _ => true, 1990⟩,
  ⟨"MAX Red Line", fun _ => true, 1997⟩,
  ⟨"MAX Yellow Line", fun z => z != "Central Business District", 1999⟩,
  ⟨"MAX Green Line", fun _ => true, 2003⟩,
  ⟨"MAX Orange Line", fun _ => true, 2008⟩]

/-- Application of a rule table in order: the first rule whose route substring
occurs in the route description and whose zone test passes yields its year;
no matching rule yields `none`. -/
def applyYearRules : List YearRule → String → String → Option Int
  | [], _, _ => none
  | r :: rest, rd, z =>
    if strContains rd r.route_sub && r.zone_test z then some r.year
    else applyYearRules rest rd z

/-- C1: for every stop row, `add_inception_year` assigns `incpt_year` by the
static rule table keyed on route-description substrings and the stop's zone —
Blue outside West Suburbs and Southwest Portland 1980, otherwise Blue 1990,
Red 1997, Yellow outside the Central Business District 1999, Green 2003,
Orange 2008 — with the rules tried in exactly that order. -/
theorem add_inception_year_matches_rule_table :
    ∀ rd z : String, inception_year rd z = applyYearRules inception_rule_table rd z := by
  intro rd z
  simp only [inception_year, applyYearRules, inception_rule_table, Bool.and_true]

/-- C2: the `sys.exit()` branch of `add_inception_year` (embedded as `none`)
is taken exactly when the stop's route description matches none of the
recognized categories — no Blue, Red, Green or Orange substring, and a Yellow
substring only when the zone is the Central Business District; in particular
a MAX Yellow Line stop in the Central Business District reaches it. -/
theorem inception_year_none_iff :
    (∀ rd z : String,
      inception_year rd z = none ↔
        (strContains rd "MAX Blue Line" = false ∧
         strContains rd "MAX Red Line" = false ∧
         (strContains rd "MAX Yellow Line" = true → z = "Central Business District") ∧
         strContains rd "MAX Green Line" = false ∧
         strContains rd "MAX Orange Line" = false)) ∧
    inception_year "MAX Yellow Line" "Central Business District" = none := by
  constructor
  · intro rd z
    cases hb : strContains rd "MAX Blue Line" <;>
    cases hr : strContains rd "MAX Red Line" <;>
    cases hy : strContains rd "MAX Yellow Line" <;>
    cases hg : strContains rd "MAX Green Line" <;>
    cases ho : strContains rd "MAX Orange Line" <;>
      simp [inception_year, hb, hr, hy, hg, ho, bne_iff_ne] <;> (split <;> simp)
  · decide

/-- Closed instance of `inception_year_none_iff`: a route description naming
no MAX line is rejected. -/
theorem inception_year_none_iff_witness : inception_year "bus 12" "Gateway" = none :=
  (inception_year_none_iff.1 "bus 12" "Gateway").mpr
    ⟨by decide, by decide, by decide, by decide, by decide⟩

/-- Lookup in an association list that embeds a Python dictionary built by an
insertion loop (`d[k] = v` per row): the binding created by the *last* row
with the key wins. -/
def lastLookup {κ α : Type} [BEq κ] : List (κ × α) → κ → Option α
  | [], _ => none
  | (k, v) :: rest, q =>
    match lastLookup rest q with
    | some w => some w
    | none => if k == q then some v else none

/-- Embedding of `assign_max_zones` (lines 64-98).  `zoneRows` are the
`(OID@, name)` rows read from `max_zones`, `nearRows` the `(IN_FID, NEAR_FID)`
rows of the generated near table, and the final argument the `OID@` values of
the `max_stops` rows in cursor order.  Each stop's `max_zone` is set to
`max_zone_dict[stop2zone_dict[oid]]`; a missing key (Python `KeyError`) is
embedded as `none`. -/
def assign_max_zones (zoneRows : List (Nat × String)) (nearRows : List (Nat × Nat)) :
    List Nat → Option (List (Nat × String))
  | [] => some []
  | oid :: rest => do
    let zoid ← lastLookup nearRows oid
    let zname ← lastLookup zoneRows zoid
    let tail ← assign_max_zones zoneRows nearRows rest
    pure ((oid, zname) :: tail)

/-- Embedding of `add_name_field` (lines 45-61): for every stop row the added
`name` attribute is set to the row's `stop_id`.  Input: the `stop_id` values
in cursor order; output: the `(stop_id, name)` pairs after the update loop. -/
def add_name_field (stopIds : List Int) : List (Int × Int) :=
  stopIds.map (fun sid => (sid, sid))

/-- C4: for every stop row, `assign_max_zones` stores in `max_zone` the name
of the zone the external near table pairs with the stop: row `i` of the result
keeps the `i`-th stop's object id and carries exactly
`max_zone_dict[stop2zone_dict[oid]]`. -/
theorem assign_max_zones_nearest (zs : List (Nat × String)) (ns : List (Nat × Nat)) :
    ∀ (stops : List Nat) (res : List (Nat × String)),
      assign_max_zones zs ns stops = some res →
      res.length = stops.length ∧
      ∀ (i : Nat) (p : Nat × String), res[i]? = some p →
        stops[i]? = some p.1 ∧ (lastLookup ns p.1).bind (lastLookup zs) = some p.2 := by
  intro stops
  induction stops with
  | nil =>
    intro res h
    rw [assign_max_zones] at h
    injection h with h
    subst h
    refine ⟨rfl, ?_⟩
    intro i p hip
    simp at hip
  | cons oid rest ih =>
    intro res h
    rw [assign_max_zones] at h
    rcases h1 : lastLookup ns oid with _ | zoid
    · simp [h1] at h
    rcases h2 : lastLookup zs zoid with _ | zname
    · simp [h1, h2] at h
    rcases h3 : assign_max_zones zs ns rest with _ | tail
    · simp [h1, h2, h3] at h
    simp only [h1, h2, h3, Option.bind_eq_bind, Option.some_bind, Option.pure_def,
      Option.some.injEq] at h
    subst h
    obtain ⟨hlen, hall⟩ := ih tail h3
    refine ⟨by simp [hlen], ?_⟩
    intro i p hip
    cases i with
    | zero =>
      simp only [List.getElem?_cons_zero, Option.some.injEq] at hip
      subst hip
      simp [h1, h2]
    | succ j =>
      simp only [List.getElem?_cons_succ] at hip ⊢
      exact hall j p hip

/-- Closed instance of `assign_max_zones_nearest`: one stop with object id 10,
nearest zone object id 1, zone 1 named Central Business District. -/
theorem assign_max_zones_nearest_witness :
    ([(10 : Nat)])[0]? = some ((10 : Nat), "Central Business District").1 ∧
    (lastLookup [((10 : Nat), (1 : Nat))] ((10 : Nat), "Central Business District").1).bind
      (lastLookup [((1 : Nat), "Central Business District")]) =
      some ((10 : Nat), "Central Business District").2 :=
  (assign_max_zones_nearest [(1, "Central Business District")] [(10, 1)] [10]
    [(10, "Central Business District")] (by decide)).2 0
    (10, "Central Business District") (by decide)

/-- C8: `add_name_field` sets every stop's `name` attribute equal to its
`stop_id`, so the resulting `name` values are pairwise distinct exactly when
the input `stop_id` values are. -/
theorem add_name_field_unique_ids (stopIds : List Int) :
    (∀ p ∈ add_name_field stopIds, p.2 = p.1) ∧
    (((add_name_field stopIds).map Prod.snd).Nodup ↔ stopIds.Nodup) := by
  constructor
  · intro p hp
    simp only [add_name_field, List.mem_map] at hp
    obtain ⟨s, _, rfl⟩ := hp
    rfl
  · have hmap : ∀ l : List Int, (add_name_field l).map Prod.snd = l := by
      intro l
      induction l with
      | nil => rfl
      | cons a t ih =>
        simp only [add_name_field, List.map_cons] at ih ⊢
        rw [ih]
    rw [hmap stopIds]

/-- Closed instance of `add_name_field_unique_ids`: the pair produced for
stop id 3 has its name equal to its stop id. -/
theorem add_name_field_unique_ids_witness :
    (((3 : Int), (3 : Int)) : Int × Int).2 = (((3 : Int), (3 : Int)) : Int × Int).1 :=
  (add_name_field_unique_ids [3]).1 (3, 3) (by decide)

/-- Configuration produced by `MakeServiceAreaLayer` in `create_service_area`
(lines 211-218): the pedestrian network dataset and the solver settings the
call passes. -/
structure ServiceAreaLayer where
  osm_network : String
  layer_name : String
  impedance_attribute : String
  travel_from_to : String
  restriction : String
  deriving DecidableEq

/-- The layer `create_service_area` builds: the `osm_foot_ND.nd` network of
the data workspace, impedance `Length`, direction `TRAVEL_TO`, restriction
`foot_permissions`. -/
def made_service_area_layer (data_workspace : String) : ServiceAreaLayer :=
  ⟨data_workspace ++ "/osm_foot_ND.nd", "service_area_layer", "Length", "TRAVEL_TO",
    "foot_permissions"⟩

/-- Module-level state touched by the service-area functions: the three
lazily assigned globals of lines 36-38, the solver's `defaultBreaks`
setting, and a count of `create_service_area` invocations used to state the
singleton property. -/
structure NAState where
  service_area_layer : Option ServiceAreaLayer
  sa_facilities : Option String
  sa_isochrones : Option String
  defaultBreaks : Option Int
  creates : Nat
  deriving DecidableEq

/-- Initial global state (lines 36-38): all three variables are `None` and no
break value has been set. -/
def initNAState : NAState := ⟨none, none, none, none, 0⟩

/-- Embedding of `create_service_area` (lines 203-227).  `naClassNames`
models `GetNAClassNames`: the toolkit's map from a layer to the names of its
`Facilities` and `SAPolygons` sub-layers. -/
def create_service_area (naClassNames : ServiceAreaLayer → String × String)
    (data_workspace : String) (st : NAState) : NAState :=
  let layer := made_service_area_layer data_workspace
  { st with
    service_area_layer := some layer
    sa_facilities := some (naClassNames layer).1
    sa_isochrones := some (naClassNames layer).2
    creates := st.creates + 1 }

/-- Layer handling of `generate_isochrones` (lines 236-241): call
`create_service_area` only when the global is still unset (Python
`if not service_area_layer`), then set the solver's `defaultBreaks` to the
break value passed in. -/
def generate_isochrones_layer (naClassNames : ServiceAreaLayer → String × String)
    (data_workspace : String) (st : NAState) (break_value : Int) : NAState :=
  let st1 := if st.service_area_layer.isNone then
      create_service_area naClassNames data_workspace st
    else st
  { st1 with defaultBreaks := some break_value }

/-- The walk distance `main` passes to `generate_isochrones` (line 326). -/
def walk_distance : Int := 2640

/-- Feet in one statute mile. -/
def feet_per_mile : Int := 5280

/-- A sequence of `generate_isochrones` calls with the given break values,
starting from a given global state. -/
def runGenerate (naClassNames : ServiceAreaLayer → String × String)
    (data_workspace : String) (st : NAState) : List Int → NAState
  | [] => st
  | b :: bs => runGenerate naClassNames data_workspace
      (generate_isochrones_layer naClassNames data_workspace st b) bs

/-- Helper: once the service-area layer is set, a `generate_isochrones` call
only updates the solver's break value. -/
theorem generate_isochrones_layer_set (naClassNames : ServiceAreaLayer → String × String)
    (ws : String) (st : NAState) (b : Int)
    (h : st.service_area_layer.isSome = true) :
    generate_isochrones_layer naClassNames ws st b = { st with defaultBreaks := some b } := by
  rcases hsa : st.service_area_layer with _ | l
  · rw [hsa] at h
    simp at h
  · simp [generate_isochrones_layer, hsa]

/-- Helper: once the service-area layer is set, a whole run of
`generate_isochrones` calls leaves the layer, the sub-layer names and the
creation count unchanged. -/
theorem runGenerate_set (naClassNames : ServiceAreaLayer → String × String) (ws : String) :
    ∀ (bs : List Int) (st : NAState), st.service_area_layer.isSome = true →
      (runGenerate naClassNames ws st bs).service_area_layer = st.service_area_layer ∧
      (runGenerate naClassNames ws st bs).sa_facilities = st.sa_facilities ∧
      (runGenerate naClassNames ws st bs).sa_isochrones = st.sa_isochrones ∧
      (runGenerate naClassNames ws st bs).creates = st.creates := by
  intro bs
  induction bs with
  | nil => intro st _; exact ⟨rfl, rfl, rfl, rfl⟩
  | cons b rest ih =>
    intro st h
    rw [runGenerate, generate_isochrones_layer_set naClassNames ws st b h]
    exact ih { st with defaultBreaks := some b } h

/-- C3: `main` requests isochrones for a break value of exactly 2640 feet,
which is half of the 5280 feet of a mile, and `generate_isochrones` sets the
solver's `defaultBreaks` to exactly that value. -/
theorem walk_distance_half_mile :
    (∀ (naClassNames : ServiceAreaLayer → String × String) (ws : String) (st : NAState),
      (generate_isochrones_layer naClassNames ws st walk_distance).defaultBreaks =
        some 2640) ∧
    walk_distance = 2640 ∧ 2 * walk_distance = feet_per_mile :=
  ⟨fun _ _ _ => rfl, rfl, rfl⟩

/-- C5: the service-area layer is a lazily configured singleton — over any
sequence of `generate_isochrones` calls from the initial state,
`create_service_area` runs exactly once (at the first call, never for an
empty sequence), and any call made with the layer already set reuses the
layer and its sub-layer names unchanged. -/
theorem service_area_singleton (naClassNames : ServiceAreaLayer → String × String)
    (ws : String) :
    (∀ bs : List Int,
      (runGenerate naClassNames ws initNAState bs).creates = min bs.length 1) ∧
    (∀ (st : NAState) (b : Int), st.service_area_layer.isSome = true →
      (generate_isochrones_layer naClassNames ws st b).service_area_layer =
          st.service_area_layer ∧
      (generate_isochrones_layer naClassNames ws st b).sa_facilities = st.sa_facilities ∧
      (generate_isochrones_layer naClassNames ws st b).sa_isochrones = st.sa_isochrones ∧
      (generate_isochrones_layer naClassNames ws st b).creates = st.creates) := by
  constructor
  · intro bs
    cases bs with
    | nil => rfl
    | cons b rest =>
      rw [runGenerate]
      rw [(runGenerate_set naClassNames ws rest
        (generate_isochrones_layer naClassNames ws initNAState b) rfl).2.2.2]
      show (1 : Nat) = min (b :: rest).length 1
      simp only [List.length_cons]
      omega
  · intro st b h
    rw [generate_isochrones_layer_set naClassNames ws st b h]
    exact ⟨rfl, rfl, rfl, rfl⟩

/-- Concrete state with the layer already configured, for the witness. -/
def sampleNAState : NAState :=
  ⟨some (made_service_area_layer "ws"), some "Facilities", some "SAPolygons", none, 1⟩

/-- Closed instance of `service_area_singleton`: a call on a state whose
layer is already configured reuses it unchanged. -/
theorem service_area_singleton_witness :
    (generate_isochrones_layer (fun _ => ("Facilities", "SAPolygons")) "ws"
        sampleNAState 2640).service_area_layer = sampleNAState.service_area_layer ∧
    (generate_isochrones_layer (fun _ => ("Facilities", "SAPolygons")) "ws"
        sampleNAState 2640).sa_facilities = sampleNAState.sa_facilities ∧
    (generate_isochrones_layer (fun _ => ("Facilities", "SAPolygons")) "ws"
        sampleNAState 2640).sa_isochrones = sampleNAState.sa_isochrones ∧
    (generate_isochrones_layer (fun _ => ("Facilities", "SAPolygons")) "ws"
        sampleNAState 2640).creates = sampleNAState.creates :=
  (service_area_singleton (fun _ => ("Facilities", "SAPolygons")) "ws").2
    sampleNAState 2640 rfl

/-- Pieces of a split around the first occurrence of a separator:
`breakOn sep s = some (pre, post)` when the separator occurs, with `pre` the
part before its first occurrence and `post` the part after it; `none` when it
does not occur. -/
def breakOn (sep : List Char) : List Char → Option (List Char × List Char)
  | [] => if leadsWith sep [] then some ([], []) else none
  | c :: rest =>
    if leadsWith sep (c :: rest) then some ([], (c :: rest).drop sep.length)
    else
      match breakOn sep rest with
      | some (pre, post) => some (c :: pre, post)
      | none => none

/-- The literal pattern `' : 0 - '` that `re.split` uses in
`generate_isochrones` (line 267); it has no regex metacharacters, so the
split is a plain substring split. -/
def iso_name_sep : List Char := " : 0 - ".data

/-- Value of an all-digit character list, the tail loop of Python `int()`;
`none` on a non-digit. -/
def digitsVal (acc : Nat) : List Char → Option Nat
  | [] => some acc
  | c :: cs => if c.isDigit then digitsVal (10 * acc + (c.toNat - 48)) cs else none

/-- Python `int()` on a string: optional surrounding whitespace, an optional
sign, then at least one decimal digit; anything else raises `ValueError`
(embedded as `none`). -/
def pyInt (cs : List Char) : Option Int :=
  let t := ((cs.dropWhile Char.isWhitespace).reverse.dropWhile Char.isWhitespace).reverse
  match t with
  | [] => none
  | '-' :: ds => if ds = [] then none else (digitsVal 0 ds).map (fun n => -(n : Int))
  | '+' :: ds => if ds = [] then none else (digitsVal 0 ds).map (fun n => (n : Int))
  | ds => (digitsVal 0 ds).map (fun n => (n : Int))

/-- A row of the final isochrones feature class as `generate_isochrones`
inserts it (lines 258-272): geometry (an opaque token), `stop_id`,
`walk_dist`. -/
structure IsoRow where
  geom : Nat
  stop_id : Int
  walk_dist : Int
  deriving DecidableEq

/-- Parse of one solver polygon's encoded name (lines 267-270): the piece of
`re.split(' : 0 - ', output_name)` at index 0 is converted by `int()` to the
stop id and the piece at index 1 to the break value.  When the separator does
not occur, index 1 raises `IndexError`; a non-numeric piece raises
`ValueError`.  Both are embedded as `none`. -/
def parse_iso_name (output_name : String) : Option (Int × Int) :=
  match breakOn iso_name_sep output_name.data with
  | none => none
  | some (pre, post) =>
    let second := match breakOn iso_name_sep post with
      | some q => q.1
      | none => post
    do
      let sid ← pyInt pre
      let bv ← pyInt second
      pure (sid, bv)

/-- Insertion loop of `generate_isochrones` (lines 264-272): for every
polygon row `(geometry, name)` of the `SAPolygons` sub-layer, in cursor
order, the name is parsed and `(geometry, stop_id, walk_dist)` is appended to
the final isochrones table.  The loop performs no membership test against the
rows already present. -/
def insert_isochrones (final : List IsoRow) : List (Nat × String) → Option (List IsoRow)
  | [] => some final
  | (g, nm) :: rest => do
    let p ← parse_iso_name nm
    insert_isochrones (final ++ [⟨g, p.1, p.2⟩]) rest

/-- Rows the polygons of a solve decode to, independent of the table they are
inserted into. -/
def rowsOf : List (Nat × String) → Option (List IsoRow)
  | [] => some []
  | (g, nm) :: rest => do
    let p ← parse_iso_name nm
    let tail ← rowsOf rest
    pure ((⟨g, p.1, p.2⟩ : IsoRow) :: tail)

/-- C6: a solver polygon whose encoded name splits on `' : 0 - '` into a
prefix and a suffix is inserted as the row whose `stop_id` is the integer
value of the prefix and whose `walk_dist` is the integer value of the suffix,
with the polygon's geometry. -/
theorem insert_isochrones_parses_name (final : List IsoRow) (g : Nat) (nm : String)
    (pre post : List Char) (sid bv : Int)
    (h1 : breakOn iso_name_sep nm.data = some (pre, post))
    (h2 : breakOn iso_name_sep post = none)
    (h3 : pyInt pre = some sid) (h4 : pyInt post = some bv) :
    insert_isochrones final [(g, nm)] = some (final ++ [⟨g, sid, bv⟩]) := by
  rw [insert_isochrones]
  rw [show parse_iso_name nm = some (sid, bv) by
    rw [parse_iso_name, h1]
    simp only [h2, h3, h4, Option.bind_eq_bind, Option.some_bind, Option.pure_def]]
  rfl

/-- Closed instance of `insert_isochrones_parses_name`: the polygon named
`9821 : 0 - 2640` becomes the row with stop id 9821 and walk distance
2640. -/
theorem insert_isochrones_parses_name_witness :
    insert_isochrones [] [(0, "9821 : 0 - 2640")] =
      some ([] ++ [(⟨0, 9821, 2640⟩ : IsoRow)]) :=
  insert_isochrones_parses_name [] 0 "9821 : 0 - 2640" "9821".data "2640".data 9821 2640
    (by decide) (by decide) (by decide) (by decide)

/-- C9: the insertion loop appends one row per solver polygon to whatever the
final isochrones table already holds — there is no membership check on
`stop_id`, so a polygon is inserted even when a row with its `stop_id` is
already present, as the concrete run in the second conjunct shows. -/
theorem insert_isochrones_unconditional :
    (∀ (polys : List (Nat × String)) (final : List IsoRow) (rows : List IsoRow),
      rowsOf polys = some rows →
      insert_isochrones final polys = some (final ++ rows)) ∧
    insert_isochrones [⟨0, 9821, 2640⟩] [(1, "9821 : 0 - 2640")] =
      some [⟨0, 9821, 2640⟩, ⟨1, 9821, 2640⟩] := by
  constructor
  · intro polys
    induction polys with
    | nil =>
      intro final rows h
      rw [rowsOf] at h
      injection h with h
      subst h
      simp [insert_isochrones]
    | cons q rest ih =>
      intro final rows h
      obtain ⟨g, nm⟩ := q
      rw [rowsOf] at h
      rcases hp : parse_iso_name nm with _ | p
      · simp [hp] at h
      rcases hr : rowsOf rest with _ | tail
      · simp [hp, hr] at h
      simp only [hp, hr, Option.bind_eq_bind, Option.some_bind, Option.pure_def,
        Option.some.injEq] at h
      subst h
      rw [insert_isochrones]
      simp only [hp, Option.bind_eq_bind, Option.some_bind]
      have hins := ih (final ++ [(⟨g, p.1, p.2⟩ : IsoRow)]) tail hr
      rw [hins]
      simp
  · decide

/-- Closed instance of `insert_isochrones_unconditional`: a parsed polygon is
appended to an empty table. -/
theorem insert_isochrones_unconditional_witness :
    insert_isochrones [] [(0, "7 : 0 - 2640")] = some ([] ++ [(⟨0, 7, 2640⟩ : IsoRow)]) :=
  insert_isochrones_unconditional.1 [(0, "7 : 0 - 2640")] [] [⟨0, 7, 2640⟩] (by decide)

/-- Attribute fields `add_iso_attributes` reads and writes (line 284):
`stop_id`, `stop_name`, `routes`, `max_zone`, `incpt_year`.  Rows of
`max_stops` and of the final isochrones table both carry them. -/
structure AttrRow where
  stop_id : Int
  stop_name : String
  routes : String
  max_zone : String
  incpt_year : Int
  deriving DecidableEq

/-- Python `str.strip()`: remove leading and trailing whitespace. -/
def pyStrip (s : String) : String :=
  ⟨((s.data.dropWhile Char.isWhitespace).reverse.dropWhile Char.isWhitespace).reverse⟩

/-- The tuple `rail_stop_dict` stores for a stop row (lines 287-289): the
row's five fields with `routes` stripped of surrounding whitespace. -/
def rail_stop_entry (s : AttrRow) : AttrRow :=
  { s with routes := pyStrip s.routes }

/-- The dictionary built from the `max_stops` rows (lines 285-289), as a
lookup: each `stop_id` maps to the entry of the last row carrying it. -/
def rail_stop_dict (stops : List AttrRow) (sid : Int) : Option AttrRow :=
  lastLookup (stops.map (fun s => (s.stop_id, rail_stop_entry s))) sid

/-- Update loop of `add_iso_attributes` (lines 291-293) with ArcGIS
row-by-row commit: each isochrone row is replaced by the dictionary entry for
its `stop_id`; a missing key raises `KeyError` (flag `true`), which stops the
loop with the failing row and all later rows still unchanged. -/
def add_iso_attributes (stops : List AttrRow) : List AttrRow → List AttrRow × Bool
  | [] => ([], false)
  | r :: rest =>
    match rail_stop_dict stops r.stop_id with
    | none => (r :: rest, true)
    | some e =>
      (e :: (add_iso_attributes stops rest).1, (add_iso_attributes stops rest).2)

/-- Helper: a `lastLookup` hit is a pair of the list. -/
theorem lastLookup_mem {κ α : Type} [BEq κ] [LawfulBEq κ] :
    ∀ (l : List (κ × α)) (k : κ) (v : α), lastLookup l k = some v → (k, v) ∈ l := by
  intro l
  induction l with
  | nil => intro k v h; rw [lastLookup] at h; cases h
  | cons kv rest ih =>
    intro k v h
    obtain ⟨k1, v1⟩ := kv
    rw [lastLookup] at h
    rcases h1 : lastLookup rest k with _ | w
    · rw [h1] at h
      by_cases hk : k1 == k
      · rw [if_pos hk] at h
        injection h with h
        subst h
        rw [eq_of_beq hk]
        exact List.mem_cons_self _ _
      · rw [if_neg hk] at h
        cases h
    · rw [h1] at h
      injection h with h
      exact List.mem_cons_of_mem _ (h ▸ ih k w h1)

/-- Helper: a `rail_stop_dict` hit is the stripped entry of a stop of the
input list that carries the looked-up `stop_id`. -/
theorem rail_stop_dict_mem (stops : List AttrRow) (sid : Int) (e : AttrRow)
    (h : rail_stop_dict stops sid = some e) :
    ∃ s, s ∈ stops ∧ s.stop_id = sid ∧ e = rail_stop_entry s := by
  have hmem := lastLookup_mem _ sid e h
  rw [List.mem_map] at hmem
  obtain ⟨s, hs, heq⟩ := hmem
  refine ⟨s, hs, ?_, ?_⟩
  · exact congrArg Prod.fst heq
  · exact (congrArg Prod.snd heq).symm

/-- C7: a run of `add_iso_attributes` that completes replaces row `i` of the
final isochrones table by the `rail_stop_dict` entry for that row's
`stop_id`, and every such entry is the matching `max_stops` row's fields with
`routes` stripped and the `stop_id` unchanged. -/
theorem add_iso_attributes_copies (stops : List AttrRow) :
    (∀ (sid : Int) (e : AttrRow), rail_stop_dict stops sid = some e →
      ∃ s, s ∈ stops ∧ s.stop_id = sid ∧ e = rail_stop_entry s) ∧
    ∀ (isos res : List AttrRow), add_iso_attributes stops isos = (res, false) →
      res.length = isos.length ∧
      ∀ (i : Nat) (r : AttrRow), isos[i]? = some r →
        res[i]? = rail_stop_dict stops r.stop_id ∧
        (rail_stop_dict stops r.stop_id).isSome = true := by
  refine ⟨rail_stop_dict_mem stops, ?_⟩
  intro isos
  induction isos with
  | nil =>
    intro res h
    rw [add_iso_attributes] at h
    injection h with h _
    subst h
    refine ⟨rfl, ?_⟩
    intro i r hir
    simp at hir
  | cons r0 rest ih =>
    intro res h
    rw [add_iso_attributes] at h
    rcases hd : rail_stop_dict stops r0.stop_id with _ | e
    · rw [hd] at h
      injection h with _ hfalse
      cases hfalse
    · rw [hd] at h
      rcases hq : add_iso_attributes stops rest with ⟨res2, err2⟩
      rw [hq] at h
      simp only [Prod.mk.injEq] at h
      obtain ⟨h1, h2⟩ := h
      subst h1
      subst h2
      obtain ⟨hlen, hall⟩ := ih res2 hq
      refine ⟨by simp [hlen], ?_⟩
      intro i r hir
      cases i with
      | zero =>
        simp only [List.getElem?_cons_zero, Option.some.injEq] at hir
        subst hir
        rw [hd]
        simp
      | succ j =>
        simp only [List.getElem?_cons_succ] at hir ⊢
        exact hall j r hir

/-- Closed instance of `add_iso_attributes_copies`: one stop with id 1 and
routes `' r '`; the isochrone row with stop id 1 is replaced by the stop's
entry with routes stripped to `'r'`. -/
theorem add_iso_attributes_copies_witness :
    ([(⟨1, "A", "r", "Z", 1980⟩ : AttrRow)])[0]? =
      rail_stop_dict [⟨1, "A", " r ", "Z", 1980⟩]
        (⟨1, "n", "rt", "z", 0⟩ : AttrRow).stop_id ∧
    (rail_stop_dict [(⟨1, "A", " r ", "Z", 1980⟩ : AttrRow)]
      (⟨1, "n", "rt", "z", 0⟩ : AttrRow).stop_id).isSome = true :=
  ((add_iso_attributes_copies [⟨1, "A", " r ", "Z", 1980⟩]).2
    [⟨1, "n", "rt", "z", 0⟩] [⟨1, "A", "r", "Z", 1980⟩] (by decide)).2
    0 ⟨1, "n", "rt", "z", 0⟩ (by decide)

/-- C10: when every `stop_id` of the final isochrones table has an entry in
the dictionary built from `max_stops`, the update loop of
`add_iso_attributes` never reaches its missing-key error; on an input
violating the precondition it stops with a `KeyError` after the earlier rows
have already been rewritten, with no rollback, as the concrete run in the
second conjunct shows. -/
theorem add_iso_attributes_precondition :
    (∀ (stops isos : List AttrRow),
      (∀ r ∈ isos, (rail_stop_dict stops r.stop_id).isSome = true) →
      (add_iso_attributes stops isos).2 = false) ∧
    add_iso_attributes [⟨1, "A", " r ", "Z", 1980⟩]
        [⟨1, "n", "rt", "z", 0⟩, ⟨2, "n", "rt", "z", 0⟩] =
      ([⟨1, "A", "r", "Z", 1980⟩, ⟨2, "n", "rt", "z", 0⟩], true) := by
  constructor
  · intro stops isos
    induction isos with
    | nil => intro _; rfl
    | cons r0 rest ih =>
      intro hall
      rw [add_iso_attributes]
      rcases hd : rail_stop_dict stops r0.stop_id with _ | e
      · have := hall r0 (List.mem_cons_self _ _)
        rw [hd] at this
        cases this
      · exact ih fun r hr => hall r (List.mem_cons_of_mem _ hr)
  · decide

/-- Closed instance of `add_iso_attributes_precondition`: with the stop table
holding id 1 and a single isochrone row with id 1, the error flag stays
`false`. -/
theorem add_iso_attributes_precondition_witness :
    (add_iso_attributes [(⟨1, "A", " r ", "Z", 1980⟩ : AttrRow)]
      [(⟨1, "n", "rt", "z", 0⟩ : AttrRow)]).2 = false :=
  add_iso_attributes_precondition.1 [⟨1, "A", " r ", "Z", 1980⟩]
    [⟨1, "n", "rt", "z", 0⟩] (by decide)

end LightRailDev
